import Mathlib

/-!
Shallow embedding of the signature-lifecycle reconciliation core of the
zapsign_api repository, together with proofs about its claimed properties.

The embedded code comes from:
* `apps/application/services/signature_service.py` (SignatureService),
* `apps/presentation/webhooks.py` (`_process_webhook_event`),
* `apps/application/facades/signature_provider_facade.py`
  (SignatureProviderFacade: `_retry_operation`, `process_webhook_event`),
* `apps/infrastructure/providers/zapsign_strategy.py` (`to_internal_status`),
* `apps/infrastructure/providers/factory.py` (`ProviderFactory.get_provider`).

Database-backed Document/Signer rows are modelled as immutable Lean
structures passed and returned explicitly; outbound provider calls are
modelled by passing the call's outcome (`Except`/response structures) as an
argument to the embedded function.
-/

/-- ASCII lowercasing, modelling Python `str.lower()` on the ASCII status
strings used throughout the code. -/
def strLower (s : String) : String := ⟨s.data.map Char.toLower⟩

/-- Predicate `starts_with_chars pat hay` is true when `pat` is an initial segment of
`hay` (character lists). -/
def starts_with_chars : List Char → List Char → Bool
  | [], _ => true
  | _ :: _, [] => false
  | a :: as, b :: bs => a = b && starts_with_chars as bs

/-- Predicate `has_sub_chars pat hay` is true when `pat` occurs contiguously inside
`hay`; models Python's `pat in hay` on strings. -/
def has_sub_chars (pat : List Char) : List Char → Bool
  | [] => starts_with_chars pat []
  | c :: t => starts_with_chars pat (c :: t) || has_sub_chars pat t

/-- Python substring test `pat in hay` for strings. -/
def has_sub (hay pat : String) : Bool := has_sub_chars pat.data hay.data

/-- Python `a or b` on optional strings: `None` and `''` are falsy. -/
def py_or (a b : Option String) : Option String :=
  match a with
  | some s => if s ≠ "" then some s else b
  | none => b

/-- Python truthiness of an optional string. -/
def truthy (a : Option String) : Bool :=
  match a with
  | some s => s ≠ ""
  | none => false

/-- Decidable equality on `Except`, so that concrete runs of the fallible
operations can be checked by evaluation. -/
def exceptDecEq {ε α : Type} [DecidableEq ε] [DecidableEq α] :
    (a b : Except ε α) → Decidable (a = b)
  | .ok a, .ok b =>
    if h : a = b then isTrue (congrArg Except.ok h)
    else isFalse (fun he => h (Except.ok.inj he))
  | .error a, .error b =>
    if h : a = b then isTrue (congrArg Except.error h)
    else isFalse (fun he => h (Except.error.inj he))
  | .ok _, .error _ => isFalse (fun he => Except.noConfusion he)
  | .error _, .ok _ => isFalse (fun he => Except.noConfusion he)

instance {ε α : Type} [DecidableEq ε] [DecidableEq α] : DecidableEq (Except ε α) :=
  exceptDecEq

/-- Embedding of `SignatureService._map_signer_status` (signature_service.py): the fixed
provider→internal signer status vocabulary, case-insensitive, defaulting to
`pending`. -/
def map_signer_status (provider_status : String) : String :=
  let l := strLower provider_status
  if l = "new" then "pending"
  else if l = "link-opened" then "in_progress"
  else if l = "signed" then "signed"
  else if l = "refused" then "rejected"
  else if l = "cancelled" then "cancelled"
  else "pending"

/-- Embedding of `ZapSignStrategy.to_internal_status` (zapsign_strategy.py): the
document-status vocabulary mapping, case-insensitive, defaulting to
`pending`.  The facade's `to_internal_status` routes to this, ZapSign being
the only registered strategy. -/
def to_internal_status (provider_status : String) : String :=
  let l := strLower provider_status
  if l = "pending" then "pending"
  else if l = "signed" then "signed"
  else if l = "cancelled" then "cancelled"
  else if l = "rejected" then "rejected"
  else if l = "expired" then "expired"
  else "pending"

/-- A Signer row (apps/domain/models/signer.py).  `token`/`sign_url` are
nullable columns, `status` is the internal signer status string. -/
structure Signer where
  name : String
  email : String
  token : Option String
  sign_url : Option String
  status : String
deriving DecidableEq

/-- A Document row (apps/domain/models/document.py) together with its owned
Signer rows (`document.signers`).  `token` is a nullable column used only
through Python truthiness in the embedded operations, so the empty string
models both NULL and `''`.  `provider_status` is modelled as a plain string:
every embedded flow that reads it runs on documents that have been through a
provider call, where it is a string. -/
structure Document where
  name : String
  open_id : Option String
  token : String
  provider_status : String
  internal_status : String
  file_url : String
  signers : List Signer
deriving DecidableEq

/-- One entry of the `signers` list of a provider status response; `.get`
misses are `none`. -/
structure SignerEntry where
  token : Option String
  status : Option String
deriving DecidableEq

/-- The provider's document-status response
(`facade.get_document_status` result dict). -/
structure StatusResponse where
  status : Option String
  signers : List SignerEntry
deriving DecidableEq

/-- Embedding of `SignatureService._calculate_internal_status` (signature_service.py
lines 144-158), as a function of the document's `provider_status` and its
Signer rows. -/
def calculate_internal_status (provider_status : String) (signers : List Signer) : String :=
  if provider_status = "cancelled" ∨ provider_status = "rejected" ∨ provider_status = "expired" then
    provider_status
  else if provider_status = "signed" then
    if signers.all (fun s => s.status = "signed") then "signed" else "in_progress"
  else
    let signed_count := (signers.filter (fun s => s.status = "signed")).length
    if 0 < signed_count ∧ signed_count < signers.length then "in_progress"
    else to_internal_status provider_status

/-- One iteration of the per-signer update loop of
`update_document_status` (signature_service.py lines 124-132): for an entry
carrying a truthy token, the matching local signer's status is overwritten
with `_map_signer_status(entry status, defaulting to the signer's current
status)`.  Django's `signers.get(token=...)` fetches the unique row with
that token (tokens are provider-assigned and unique), which we model by
rewriting every matching element; `Signer.DoesNotExist` (`pass`) is the
no-match case, where the map is the identity. -/
def apply_signer_entry (signers : List Signer) (entry : SignerEntry) : List Signer :=
  match entry.token with
  | none => signers
  | some t =>
    if t = "" then signers
    else signers.map (fun s =>
      if s.token = some t then
        { s with status := map_signer_status (entry.status.getD s.status) }
      else s)

/-- The whole per-signer update loop, in response order. -/
def apply_signer_entries (signers : List Signer) (entries : List SignerEntry) : List Signer :=
  entries.foldl apply_signer_entry signers

/-- Embedding of `document.signers.filter(status__in=['pending','in_progress']).update(status='signed')`:
the bulk force-advance used by both the polling refresh and the facade's
`doc_signed` webhook branch. -/
def force_advance (signers : List Signer) : List Signer :=
  signers.map (fun s =>
    if s.status = "pending" ∨ s.status = "in_progress" then { s with status := "signed" } else s)

/-- Embedding of `SignatureService.update_document_status` (signature_service.py lines
102-142).  The outcome of `facade.get_document_status` is passed in as
`fetch`: `.error e` models the call raising an exception whose `str` is
`e`, `.ok r` a returned response dict.  The result is `.error` when the
service itself raises (missing token, or a re-raised provider error). -/
def update_document_status (document : Document) (fetch : Except String StatusResponse) :
    Except String Document :=
  if document.token = "" then .error "Document token is required to update status"
  else
    match fetch with
    | .error e =>
      if has_sub e "404" || has_sub (strLower e) "not found" then .ok document
      else .error e
    | .ok response =>
      if response.status = some "not_found" then .ok document
      else
        let provider_status := response.status.getD document.provider_status
        let signers1 := apply_signer_entries document.signers response.signers
        let signers2 := if provider_status = "signed" then force_advance signers1 else signers1
        .ok { document with
              provider_status := provider_status
              signers := signers2
              internal_status := calculate_internal_status provider_status signers2 }

/-- The caller-supplied fields of a new signer
(`signer_data` in `add_signer_to_document`). -/
structure SignerInput where
  name : String
  email : String
deriving DecidableEq

/-- The provider's response to `facade.add_signer`. -/
structure AddSignerResponse where
  token : Option String
  sign_url : Option String
  status : Option String
deriving DecidableEq

/-- Embedding of `SignatureService.add_signer_to_document` (signature_service.py lines
160-179): requires a truthy document token, appends one new Signer row
built from the provider response; note that `internal_status` is not
recomputed. -/
def add_signer_to_document (document : Document) (signer_data : SignerInput)
    (response : AddSignerResponse) : Except String Document :=
  if document.token = "" then .error "Document token is required to add signer"
  else
    .ok { document with
          signers := document.signers ++
            [{ name := signer_data.name
               email := signer_data.email
               token := response.token
               sign_url := response.sign_url
               status := map_signer_status (response.status.getD "pending") }] }

/-- The payload fields read by `_process_webhook_event` (webhooks.py):
`payload.get('signer', {}).get('token')`,
`payload.get('unauthenticated_signer', {}).get('token')` and
`payload.get('email')`. -/
structure WebhookPayload where
  signer_token : Option String
  unauth_signer_token : Option String
  email : Option String
deriving DecidableEq

/-- Embedding of `_process_webhook_event` (webhooks.py lines 46-90), the event dispatch
actually invoked by the webhook endpoint.  `event_type` is
`payload.get('event') or payload.get('event_type')` computed by the caller.
Django `signers.get(...)` plus `Signer.DoesNotExist: pass` is modelled as
in `apply_signer_entry`: rewrite the matching row, identity when no row
matches. -/
def webhooks_process_webhook_event (document : Document) (event_type : Option String)
    (payload : WebhookPayload) : Document :=
  if event_type = some "doc_signed" then
    { document with provider_status := "signed", internal_status := "signed" }
  else if event_type = some "signer_signed" then
    match payload.signer_token with
    | some t =>
      if t ≠ "" ∧ document.signers.any (fun s => s.token = some t) then
        let signers1 := document.signers.map (fun s =>
          if s.token = some t then { s with status := "signed" } else s)
        if signers1.all (fun s => s.status = "signed") then
          { document with signers := signers1, provider_status := "signed",
                          internal_status := "signed" }
        else
          { document with signers := signers1, internal_status := "in_progress" }
      else document
    | none => document
  else if event_type = some "signer_authentication_failed" then
    match payload.unauth_signer_token with
    | some t =>
      if t ≠ "" ∧ document.signers.any (fun s => s.token = some t) then
        { document with signers := document.signers.map (fun s =>
            if s.token = some t then { s with status := "rejected" } else s) }
      else document
    | none => document
  else if event_type = some "email_bounce" then
    match payload.email with
    | some em =>
      if em ≠ "" ∧ document.signers.any (fun s => s.email = em) then
        { document with signers := document.signers.map (fun s =>
            if s.email = em then { s with status := "rejected" } else s) }
      else document
    | none => document
  else document

/-- The payload fields read by `SignatureProviderFacade.process_webhook_event`
(signature_provider_facade.py lines 87-161). -/
structure FacadePayload where
  event_type : Option String
  event : Option String
  status : Option String
  signer_token : Option String
  unauth_signer_token : Option String
  email : Option String
deriving DecidableEq

/-- Embedding of `SignatureProviderFacade.process_webhook_event`
(signature_provider_facade.py lines 87-161).  This routine force-advances
signers on `doc_signed`; note that the webhook endpoint calls
`_process_webhook_event` of webhooks.py instead of this method. -/
def facade_process_webhook_event (document : Document) (payload : FacadePayload) : Document :=
  let event_type := py_or payload.event_type payload.event
  if ¬ truthy event_type then document
  else if event_type = some "doc_created" then
    let ps := payload.status.getD "pending"
    { document with provider_status := ps, internal_status := to_internal_status ps }
  else if event_type = some "doc_signed" then
    { document with provider_status := "signed", internal_status := "signed",
                    signers := force_advance document.signers }
  else if event_type = some "signer_signed" then
    match payload.signer_token with
    | some t =>
      if t ≠ "" ∧ document.signers.any (fun s => s.token = some t) then
        let signers1 := document.signers.map (fun s =>
          if s.token = some t then { s with status := "signed" } else s)
        if signers1.all (fun s => s.status = "signed") then
          { document with signers := signers1, provider_status := "signed",
                          internal_status := "signed" }
        else
          { document with signers := signers1, internal_status := "in_progress" }
      else document
    | none => document
  else if event_type = some "signer_authentication_failed" then
    match payload.unauth_signer_token with
    | some t =>
      if t ≠ "" ∧ document.signers.any (fun s => s.token = some t) then
        { document with signers := document.signers.map (fun s =>
            if s.token = some t then { s with status := "rejected" } else s) }
      else document
    | none => document
  else if event_type = some "email_bounce" then
    match payload.email with
    | some em =>
      if em ≠ "" ∧ document.signers.any (fun s => s.email = em) then
        { document with signers := document.signers.map (fun s =>
            if s.email = em then { s with status := "rejected" } else s) }
      else document
    | none => document
  else document

/-- What a `_retry_operation` run did overall: fell off the loop returning
`None`, returned a value, or re-raised the last exception. -/
inductive RetryOutcome (ε α : Type) where
  | noneReturned : RetryOutcome ε α
  | value : α → RetryOutcome ε α
  | raised : ε → RetryOutcome ε α
deriving DecidableEq

/-- Observable trace of one `_retry_operation` run: how many times the
wrapped operation was invoked, the `time.sleep` durations in order, and the
outcome. -/
structure RetryTrace (ε α : Type) where
  calls : Nat
  sleeps : List Nat
  outcome : RetryOutcome ε α
deriving DecidableEq

/-- The body of `SignatureProviderFacade._retry_operation`
(signature_provider_facade.py lines 23-30), from loop index `attempt`
upward: `for attempt in range(max_retries): try: return operation(...)
except: if attempt == max_retries - 1: raise; sleep(delay * (attempt + 1))`.
`op i` is the outcome of the `i`-th invocation of the wrapped operation. -/
def retry_from (op : Nat → Except ε α) (max_retries delay : Nat) (attempt : Nat) :
    RetryTrace ε α :=
  if _h : attempt < max_retries then
    match op attempt with
    | .ok a => { calls := 1, sleeps := [], outcome := .value a }
    | .error e =>
      if attempt = max_retries - 1 then { calls := 1, sleeps := [], outcome := .raised e }
      else
        let rest := retry_from op max_retries delay (attempt + 1)
        { calls := rest.calls + 1
          sleeps := delay * (attempt + 1) :: rest.sleeps
          outcome := rest.outcome }
  else { calls := 0, sleeps := [], outcome := .noneReturned }
termination_by max_retries - attempt
decreasing_by omega

/-- Embedding of `SignatureProviderFacade._retry_operation`: the loop starting at
attempt 0.  `max_retries` is a Python int; `range(max_retries)` is empty for
any value ≤ 0, which `Int.toNat` models. -/
def retry_operation (op : Nat → Except ε α) (max_retries : Int) (delay : Nat) :
    RetryTrace ε α :=
  retry_from op max_retries.toNat delay 0

/-- Program counter of one thread executing
`ProviderFactory.get_provider` (factory.py lines 23-32) for one fixed cache
key.  Constructed strategy instances are identified by their construction
sequence number. -/
inductive ThreadPC where
  | start
  | waitLock
  | critCheck
  | critInsert (v : Nat)
  | critRelease
  | retRead
  | done (v : Option Nat)
deriving DecidableEq

/-- Shared state plus per-thread program counters for `n` concurrent
`get_provider` calls with identical arguments: the cache slot for their
common key, the `threading.Lock`, and how many times `_create_strategy`
has run. -/
structure FactoryConfig (n : Nat) where
  cache : Option Nat
  lockHeld : Bool
  constructions : Nat
  th : Fin n → ThreadPC

/-- Is a thread inside the `with self._lock:` block? -/
def in_crit : ThreadPC → Bool
  | .critCheck => true
  | .critInsert _ => true
  | .critRelease => true
  | _ => false

/-- Interleaving semantics of `get_provider`: each constructor is one
atomic action of one thread (the CPython-level atomicity of a single dict
read, dict write, or lock operation).
* `fastHit`/`fastMiss`: the unlocked `if cache_key not in self._providers_cache`.
* `acquire`: `with self._lock:` entry, blocking while held.
* `slowHit`/`createStep`: the locked re-check; `createStep` is
  `_create_strategy` returning a fresh instance.
* `insertStep`: `self._providers_cache[cache_key] = strategy`.
* `releaseStep`: leaving the `with` block.
* `returnStep`: the final `return self._providers_cache[cache_key]` read. -/
inductive FactoryStep (n : Nat) : FactoryConfig n → FactoryConfig n → Prop where
  | fastHit (c : FactoryConfig n) (i : Fin n) (hpc : c.th i = .start)
      (hc : c.cache.isSome) :
      FactoryStep n c { c with th := Function.update c.th i .retRead }
  | fastMiss (c : FactoryConfig n) (i : Fin n) (hpc : c.th i = .start)
      (hc : c.cache = none) :
      FactoryStep n c { c with th := Function.update c.th i .waitLock }
  | acquire (c : FactoryConfig n) (i : Fin n) (hpc : c.th i = .waitLock)
      (hl : c.lockHeld = false) :
      FactoryStep n c { c with lockHeld := true, th := Function.update c.th i .critCheck }
  | slowHit (c : FactoryConfig n) (i : Fin n) (hpc : c.th i = .critCheck)
      (hc : c.cache.isSome) :
      FactoryStep n c { c with th := Function.update c.th i .critRelease }
  | createStep (c : FactoryConfig n) (i : Fin n) (hpc : c.th i = .critCheck)
      (hc : c.cache = none) :
      FactoryStep n c { c with constructions := c.constructions + 1,
                               th := Function.update c.th i (.critInsert c.constructions) }
  | insertStep (c : FactoryConfig n) (i : Fin n) (v : Nat) (hpc : c.th i = .critInsert v) :
      FactoryStep n c { c with cache := some v, th := Function.update c.th i .critRelease }
  | releaseStep (c : FactoryConfig n) (i : Fin n) (hpc : c.th i = .critRelease) :
      FactoryStep n c { c with lockHeld := false, th := Function.update c.th i .retRead }
  | returnStep (c : FactoryConfig n) (i : Fin n) (hpc : c.th i = .retRead) :
      FactoryStep n c { c with th := Function.update c.th i (.done c.cache) }

/-- Initial configuration: empty cache slot, lock free, no constructions,
every thread about to run `get_provider`. -/
def factory_init (n : Nat) : FactoryConfig n :=
  { cache := none, lockHeld := false, constructions := 0, th := fun _ => .start }

/-- Configurations reachable by interleaving the `n` threads. -/
def factory_reachable (n : Nat) (c : FactoryConfig n) : Prop :=
  Relation.ReflTransGen (FactoryStep n) (factory_init n) c

/-- Inductive invariant of the double-checked-locking cache. -/
structure FactoryInv (n : Nat) (c : FactoryConfig n) : Prop where
  cons_le : c.constructions ≤ 1
  cache_val : ∀ v, c.cache = some v → v = 0 ∧ c.constructions = 1
  mutex : ∀ i j, in_crit (c.th i) = true → in_crit (c.th j) = true → i = j
  lock_free : c.lockHeld = false → ∀ i, in_crit (c.th i) = false
  insert_inv : ∀ i v, c.th i = .critInsert v → v = 0 ∧ c.constructions = 1 ∧ c.cache = none
  pending_insert : c.cache = none → c.constructions = 1 → ∃ i, c.th i = .critInsert 0
  release_cache : ∀ i, c.th i = .critRelease → c.cache.isSome
  ret_cache : ∀ i, c.th i = .retRead → c.cache.isSome
  done_cache : ∀ i v, c.th i = .done v → v = some 0 ∧ c.cache = some 0

/-- The derivation rule exactly as the specification words it (§4.3 rules
1-4), for comparison with `calculate_internal_status`: terminal negative
pass-through; `signed` iff all signers signed else `in_progress`; partial
progress strictly between 0 and the signer count; otherwise the strategy's
external-status mapping. -/
def derive_internal_status_spec (provider_status : String) (signers : List Signer) : String :=
  if provider_status ∈ ["cancelled", "rejected", "expired"] then provider_status
  else if provider_status = "signed" then
    if ∀ s ∈ signers, s.status = "signed" then "signed" else "in_progress"
  else if 0 < signers.countP (fun s => s.status = "signed") ∧
          signers.countP (fun s => s.status = "signed") < signers.length then "in_progress"
  else to_internal_status provider_status

/-! Concrete rows and payloads used by counterexamples and witnesses. -/

/-- A pending signer with provider token `s1`. -/
def sig_pending : Signer :=
  { name := "Alice", email := "alice@example.com", token := some "s1",
    sign_url := some "https://sign/s1", status := "pending" }

/-- A signed signer with provider token `s1`. -/
def sig_signed : Signer :=
  { name := "Alice", email := "alice@example.com", token := some "s1",
    sign_url := some "https://sign/s1", status := "signed" }

/-- A rejected signer with provider token `s1`. -/
def sig_rejected : Signer :=
  { name := "Alice", email := "alice@example.com", token := some "s1",
    sign_url := some "https://sign/s1", status := "rejected" }

/-- A payload carrying no signer token, no fallback token and no email. -/
def payload_empty : WebhookPayload :=
  { signer_token := none, unauth_signer_token := none, email := none }

/-- A cancelled document (terminal state) with one still-pending signer. -/
def doc_cancelled : Document :=
  { name := "Contract", open_id := some "1", token := "t1",
    provider_status := "cancelled", internal_status := "cancelled",
    file_url := "https://files/contract.pdf", signers := [sig_pending] }

/-- A fully converged signed document: provider and internal status
`signed`, single signer signed. -/
def doc_all_signed : Document :=
  { name := "Contract", open_id := some "1", token := "t1",
    provider_status := "signed", internal_status := "signed",
    file_url := "https://files/contract.pdf", signers := [sig_signed] }

/-- An in-progress document whose only signer has already signed. -/
def doc_one_signed : Document :=
  { name := "Contract", open_id := some "1", token := "t1",
    provider_status := "pending", internal_status := "in_progress",
    file_url := "https://files/contract.pdf", signers := [sig_signed] }

/-- A document with one pending signer, awaiting signature. -/
def doc_pending : Document :=
  { name := "Contract", open_id := some "1", token := "t1",
    provider_status := "pending", internal_status := "pending",
    file_url := "https://files/contract.pdf", signers := [sig_pending] }

/-- An in-progress document whose only signer has rejected. -/
def doc_one_rejected : Document :=
  { name := "Contract", open_id := some "1", token := "t1",
    provider_status := "pending", internal_status := "in_progress",
    file_url := "https://files/contract.pdf", signers := [sig_rejected] }

/-- A stale provider refresh: document still `pending` there, and the
signer entry for `s1` reports the pre-signature status `new`. -/
def resp_stale : StatusResponse :=
  { status := some "pending", signers := [{ token := some "s1", status := some "new" }] }

/-- A provider refresh reporting the aggregate document status `signed`
with no per-signer entries. -/
def resp_signed : StatusResponse :=
  { status := some "signed", signers := [] }

/-- A provider refresh reporting `signed`, with a consistent `signed`
entry for signer `s1`. -/
def resp_signed_entry : StatusResponse :=
  { status := some "signed", signers := [{ token := some "s1", status := some "signed" }] }

/-- The thread-interleaving trace used as the C9 witness, for one thread:
fast-path miss, lock acquire, locked re-check miss, construct, insert,
release, return. -/
def fw0 : FactoryConfig 1 := factory_init 1

/-- After the fast-path miss. -/
def fw1 : FactoryConfig 1 := { fw0 with th := Function.update fw0.th 0 .waitLock }

/-- After acquiring the lock. -/
def fw2 : FactoryConfig 1 :=
  { fw1 with lockHeld := true, th := Function.update fw1.th 0 .critCheck }

/-- After `_create_strategy` runs. -/
def fw3 : FactoryConfig 1 :=
  { fw2 with constructions := fw2.constructions + 1,
             th := Function.update fw2.th 0 (.critInsert fw2.constructions) }

/-- After the cache insert. -/
def fw4 : FactoryConfig 1 :=
  { fw3 with cache := some 0, th := Function.update fw3.th 0 .critRelease }

/-- After releasing the lock. -/
def fw5 : FactoryConfig 1 :=
  { fw4 with lockHeld := false, th := Function.update fw4.th 0 .retRead }

/-- After the final cache read returns. -/
def fw6 : FactoryConfig 1 := { fw5 with th := Function.update fw5.th 0 (.done fw5.cache) }

/-- Caller-supplied fields for a new signer named Bob. -/
def signer_input_bob : SignerInput := { name := "Bob", email := "bob@example.com" }

/-- Provider response to add_signer: token `s2`, provider status `new`. -/
def add_resp_new : AddSignerResponse :=
  { token := some "s2", sign_url := some "https://sign/s2", status := some "new" }

/-- The Signer row created from `add_resp_new` for Bob. -/
def sig_bob_pending : Signer :=
  { name := "Bob", email := "bob@example.com", token := some "s2",
    sign_url := some "https://sign/s2", status := "pending" }

/-- Document `doc_all_signed` after adding Bob: the stored internal status is still
`signed` although the derivation over the new signer set gives
`in_progress`. -/
def doc_c4_result : Document := { doc_all_signed with signers := [sig_signed, sig_bob_pending] }

/-- Document `doc_all_signed` after a refresh with the stale response: everything
regressed to pending. -/
def doc_c4_upd : Document :=
  { doc_all_signed with provider_status := "pending", internal_status := "pending",
                        signers := [sig_pending] }

/-- Document `doc_pending` after a refresh reporting `signed`: the pending signer is
force-advanced and the document converges to signed. -/
def doc_c5w : Document :=
  { doc_pending with provider_status := "signed", internal_status := "signed",
                     signers := [sig_signed] }

/-- A facade webhook payload for a `doc_signed` event. -/
def fp_doc_signed : FacadePayload :=
  { event_type := some "doc_signed", event := none, status := none,
    signer_token := none, unauth_signer_token := none, email := none }

/-! Helper lemmas. -/

/-- Mapping a function that fixes every element of a list is the identity. -/
theorem list_map_id_of_mem {α : Type} (l : List α) (f : α → α) (h : ∀ a ∈ l, f a = a) :
    l.map f = l := by
  induction l with
  | nil => rfl
  | cons a t ih =>
    simp only [List.map_cons, h a (by simp)]
    exact congrArg _ (ih fun b hb => h b (by simp [hb]))

/-- The invariant holds initially. -/
theorem factory_inv_init (n : Nat) : FactoryInv n (factory_init n) := by
  refine ⟨Nat.zero_le 1, ?_, ?_, ?_, ?_, ?_, ?_, ?_, ?_⟩
  · intro v hv; exact absurd hv (by simp [factory_init])
  · intro i j hi _; exact absurd hi (by simp [factory_init, in_crit])
  · intro _ i; simp [factory_init, in_crit]
  · intro i v h; exact absurd h (by simp [factory_init])
  · intro _ h1; exact absurd h1 (by simp [factory_init])
  · intro i h; exact absurd h (by simp [factory_init])
  · intro i h; exact absurd h (by simp [factory_init])
  · intro i v h; exact absurd h (by simp [factory_init])

/-- Each interleaving step preserves the invariant. -/
theorem factory_inv_step {n : Nat} {c c' : FactoryConfig n}
    (hinv : FactoryInv n c) (hs : FactoryStep n c c') : FactoryInv n c' := by
  obtain ⟨cons_le, cache_val, mutex, lock_free, insert_inv, pending_insert,
    release_cache, ret_cache, done_cache⟩ := hinv
  cases hs with
  | fastHit i hpc hc =>
    refine ⟨cons_le, cache_val, ?_, ?_, ?_, ?_, ?_, ?_, ?_⟩
    · intro j k hj hk
      by_cases hji : j = i
      · subst hji; simp only [Function.update_same] at hj; simp [in_crit] at hj
      · simp only [Function.update_noteq hji] at hj
        by_cases hki : k = i
        · subst hki; simp only [Function.update_same] at hk; simp [in_crit] at hk
        · simp only [Function.update_noteq hki] at hk; exact mutex j k hj hk
    · intro hl j
      by_cases hji : j = i
      · subst hji; simp only [Function.update_same]; rfl
      · simp only [Function.update_noteq hji]; exact lock_free hl j
    · intro j v hj
      by_cases hji : j = i
      · subst hji; simp only [Function.update_same] at hj; cases hj
      · simp only [Function.update_noteq hji] at hj; exact insert_inv j v hj
    · intro h0 h1
      obtain ⟨j, hj⟩ := pending_insert h0 h1
      have hji : j ≠ i := by intro e; rw [e, hpc] at hj; cases hj
      exact ⟨j, by simp only [Function.update_noteq hji]; exact hj⟩
    · intro j hj
      by_cases hji : j = i
      · subst hji; simp only [Function.update_same] at hj; cases hj
      · simp only [Function.update_noteq hji] at hj; exact release_cache j hj
    · intro j hj
      by_cases hji : j = i
      · exact hc
      · simp only [Function.update_noteq hji] at hj; exact ret_cache j hj
    · intro j v hj
      by_cases hji : j = i
      · subst hji; simp only [Function.update_same] at hj; cases hj
      · simp only [Function.update_noteq hji] at hj; exact done_cache j v hj
  | fastMiss i hpc hc =>
    refine ⟨cons_le, cache_val, ?_, ?_, ?_, ?_, ?_, ?_, ?_⟩
    · intro j k hj hk
      by_cases hji : j = i
      · subst hji; simp only [Function.update_same] at hj; simp [in_crit] at hj
      · simp only [Function.update_noteq hji] at hj
        by_cases hki : k = i
        · subst hki; simp only [Function.update_same] at hk; simp [in_crit] at hk
        · simp only [Function.update_noteq hki] at hk; exact mutex j k hj hk
    · intro hl j
      by_cases hji : j = i
      · subst hji; simp only [Function.update_same]; rfl
      · simp only [Function.update_noteq hji]; exact lock_free hl j
    · intro j v hj
      by_cases hji : j = i
      · subst hji; simp only [Function.update_same] at hj; cases hj
      · simp only [Function.update_noteq hji] at hj; exact insert_inv j v hj
    · intro h0 h1
      obtain ⟨j, hj⟩ := pending_insert h0 h1
      have hji : j ≠ i := by intro e; rw [e, hpc] at hj; cases hj
      exact ⟨j, by simp only [Function.update_noteq hji]; exact hj⟩
    · intro j hj
      by_cases hji : j = i
      · subst hji; simp only [Function.update_same] at hj; cases hj
      · simp only [Function.update_noteq hji] at hj; exact release_cache j hj
    · intro j hj
      by_cases hji : j = i
      · subst hji; simp only [Function.update_same] at hj; cases hj
      · simp only [Function.update_noteq hji] at hj; exact ret_cache j hj
    · intro j v hj
      by_cases hji : j = i
      · subst hji; simp only [Function.update_same] at hj; cases hj
      · simp only [Function.update_noteq hji] at hj; exact done_cache j v hj
  | acquire i hpc hl =>
    have hnocrit : ∀ j, in_crit (c.th j) = false := lock_free hl
    refine ⟨cons_le, cache_val, ?_, ?_, ?_, ?_, ?_, ?_, ?_⟩
    · intro j k hj hk
      by_cases hji : j = i
      · by_cases hki : k = i
        · rw [hji, hki]
        · simp only [Function.update_noteq hki] at hk
          exact absurd hk (by simp [hnocrit k])
      · simp only [Function.update_noteq hji] at hj
        exact absurd hj (by simp [hnocrit j])
    · intro hl'; cases hl'
    · intro j v hj
      by_cases hji : j = i
      · subst hji; simp only [Function.update_same] at hj; cases hj
      · simp only [Function.update_noteq hji] at hj
        have := hnocrit j; rw [hj] at this; simp [in_crit] at this
    · intro h0 h1
      obtain ⟨j, hj⟩ := pending_insert h0 h1
      have := hnocrit j; rw [hj] at this; simp [in_crit] at this
    · intro j hj
      by_cases hji : j = i
      · subst hji; simp only [Function.update_same] at hj; cases hj
      · simp only [Function.update_noteq hji] at hj; exact release_cache j hj
    · intro j hj
      by_cases hji : j = i
      · subst hji; simp only [Function.update_same] at hj; cases hj
      · simp only [Function.update_noteq hji] at hj; exact ret_cache j hj
    · intro j v hj
      by_cases hji : j = i
      · subst hji; simp only [Function.update_same] at hj; cases hj
      · simp only [Function.update_noteq hji] at hj; exact done_cache j v hj
  | slowHit i hpc hc =>
    have hlock : c.lockHeld = true := by
      by_contra h
      have := lock_free (by revert h; cases c.lockHeld <;> simp) i
      rw [hpc] at this; simp [in_crit] at this
    refine ⟨cons_le, cache_val, ?_, ?_, ?_, ?_, ?_, ?_, ?_⟩
    · intro j k hj hk
      by_cases hji : j = i
      · by_cases hki : k = i
        · rw [hji, hki]
        · simp only [Function.update_noteq hki] at hk
          rw [hji]; exact (mutex k i hk (by rw [hpc]; rfl)).symm
      · simp only [Function.update_noteq hji] at hj
        by_cases hki : k = i
        · rw [hki]; exact mutex j i hj (by rw [hpc]; rfl)
        · simp only [Function.update_noteq hki] at hk; exact mutex j k hj hk
    · intro hl'; rw [hlock] at hl'; cases hl'
    · intro j v hj
      by_cases hji : j = i
      · subst hji; simp only [Function.update_same] at hj; cases hj
      · simp only [Function.update_noteq hji] at hj; exact insert_inv j v hj
    · intro h0 h1
      obtain ⟨j, hj⟩ := pending_insert h0 h1
      have hji : j ≠ i := by intro e; rw [e, hpc] at hj; cases hj
      exact ⟨j, by simp only [Function.update_noteq hji]; exact hj⟩
    · intro j hj
      by_cases hji : j = i
      · exact hc
      · simp only [Function.update_noteq hji] at hj; exact release_cache j hj
    · intro j hj
      by_cases hji : j = i
      · subst hji; simp only [Function.update_same] at hj; cases hj
      · simp only [Function.update_noteq hji] at hj; exact ret_cache j hj
    · intro j v hj
      by_cases hji : j = i
      · subst hji; simp only [Function.update_same] at hj; cases hj
      · simp only [Function.update_noteq hji] at hj; exact done_cache j v hj
  | createStep i hpc hc =>
    have hcons0 : c.constructions = 0 := by
      rcases Nat.lt_or_ge c.constructions 1 with h | h
      · omega
      · exfalso
        have h1 : c.constructions = 1 := by omega
        obtain ⟨j, hj⟩ := pending_insert hc h1
        have hji : j = i := mutex j i (by rw [hj]; rfl) (by rw [hpc]; rfl)
        rw [hji, hpc] at hj; cases hj
    refine ⟨?_, ?_, ?_, ?_, ?_, ?_, ?_, ?_, ?_⟩
    · show c.constructions + 1 ≤ 1; omega
    · intro v hv; exact absurd hv (by simp [hc])
    · intro j k hj hk
      by_cases hji : j = i
      · by_cases hki : k = i
        · rw [hji, hki]
        · simp only [Function.update_noteq hki] at hk
          rw [hji]; exact (mutex k i hk (by rw [hpc]; rfl)).symm
      · simp only [Function.update_noteq hji] at hj
        by_cases hki : k = i
        · rw [hki]; exact mutex j i hj (by rw [hpc]; rfl)
        · simp only [Function.update_noteq hki] at hk; exact mutex j k hj hk
    · intro hl'
      exfalso
      have hlock : c.lockHeld = true := by
        by_contra h
        have := lock_free (by revert h; cases c.lockHeld <;> simp) i
        rw [hpc] at this; simp [in_crit] at this
      rw [hlock] at hl'; cases hl'
    · intro j v hj
      by_cases hji : j = i
      · subst hji; simp only [Function.update_same] at hj
        cases hj
        exact ⟨hcons0, show c.constructions + 1 = 1 by omega, hc⟩
      · simp only [Function.update_noteq hji] at hj
        have hji' : j = i := mutex j i (by rw [hj]; rfl) (by rw [hpc]; rfl)
        exact absurd hji' hji
    · intro _ _
      refine ⟨i, ?_⟩
      simp only [Function.update_same, hcons0]
    · intro j hj
      by_cases hji : j = i
      · subst hji; simp only [Function.update_same] at hj; cases hj
      · simp only [Function.update_noteq hji] at hj
        have hji' : j = i := mutex j i (by rw [hj]; rfl) (by rw [hpc]; rfl)
        exact absurd hji' hji
    · intro j hj
      by_cases hji : j = i
      · subst hji; simp only [Function.update_same] at hj; cases hj
      · simp only [Function.update_noteq hji] at hj; exact ret_cache j hj
    · intro j v hj
      by_cases hji : j = i
      · subst hji; simp only [Function.update_same] at hj; cases hj
      · simp only [Function.update_noteq hji] at hj
        exact absurd (done_cache j v hj).2 (by simp [hc])
  | insertStep i v hpc =>
    obtain ⟨hv0, hcons1, hcnone⟩ := insert_inv i v hpc
    refine ⟨cons_le, ?_, ?_, ?_, ?_, ?_, ?_, ?_, ?_⟩
    · intro w hw
      cases hw
      exact ⟨hv0, hcons1⟩
    · intro j k hj hk
      by_cases hji : j = i
      · by_cases hki : k = i
        · rw [hji, hki]
        · simp only [Function.update_noteq hki] at hk
          rw [hji]; exact (mutex k i hk (by rw [hpc]; rfl)).symm
      · simp only [Function.update_noteq hji] at hj
        by_cases hki : k = i
        · rw [hki]; exact mutex j i hj (by rw [hpc]; rfl)
        · simp only [Function.update_noteq hki] at hk; exact mutex j k hj hk
    · intro hl'
      exfalso
      have hlock : c.lockHeld = true := by
        by_contra h
        have := lock_free (by revert h; cases c.lockHeld <;> simp) i
        rw [hpc] at this; simp [in_crit] at this
      rw [hlock] at hl'; cases hl'
    · intro j w hj
      by_cases hji : j = i
      · subst hji; simp only [Function.update_same] at hj; cases hj
      · simp only [Function.update_noteq hji] at hj
        have hji' : j = i := mutex j i (by rw [hj]; rfl) (by rw [hpc]; rfl)
        exact absurd hji' hji
    · intro h0 _; cases h0
    · intro j hj; rfl
    · intro j hj; rfl
    · intro j w hj
      by_cases hji : j = i
      · subst hji; simp only [Function.update_same] at hj; cases hj
      · simp only [Function.update_noteq hji] at hj
        exact absurd (done_cache j w hj).2 (by simp [hcnone])
  | releaseStep i hpc =>
    refine ⟨cons_le, cache_val, ?_, ?_, ?_, ?_, ?_, ?_, ?_⟩
    · intro j k hj hk
      by_cases hji : j = i
      · subst hji; simp only [Function.update_same] at hj; simp [in_crit] at hj
      · simp only [Function.update_noteq hji] at hj
        by_cases hki : k = i
        · subst hki; simp only [Function.update_same] at hk; simp [in_crit] at hk
        · simp only [Function.update_noteq hki] at hk; exact mutex j k hj hk
    · intro _ j
      by_cases hji : j = i
      · subst hji; simp only [Function.update_same]; rfl
      · simp only [Function.update_noteq hji]
        by_contra h
        have hcrit : in_crit (c.th j) = true := by
          revert h; cases hcj : in_crit (c.th j) <;> simp
        have hji' : j = i := mutex j i hcrit (by rw [hpc]; rfl)
        exact hji hji'
    · intro j v hj
      by_cases hji : j = i
      · subst hji; simp only [Function.update_same] at hj; cases hj
      · simp only [Function.update_noteq hji] at hj
        have hji' : j = i := mutex j i (by rw [hj]; rfl) (by rw [hpc]; rfl)
        exact absurd hji' hji
    · intro h0 h1
      obtain ⟨j, hj⟩ := pending_insert h0 h1
      have hji : j ≠ i := by intro e; rw [e, hpc] at hj; cases hj
      exact ⟨j, by simp only [Function.update_noteq hji]; exact hj⟩
    · intro j hj
      by_cases hji : j = i
      · subst hji; simp only [Function.update_same] at hj; cases hj
      · simp only [Function.update_noteq hji] at hj; exact release_cache j hj
    · intro j hj
      by_cases hji : j = i
      · exact release_cache i hpc
      · simp only [Function.update_noteq hji] at hj; exact ret_cache j hj
    · intro j v hj
      by_cases hji : j = i
      · subst hji; simp only [Function.update_same] at hj; cases hj
      · simp only [Function.update_noteq hji] at hj; exact done_cache j v hj
  | returnStep i hpc =>
    have hsome : c.cache.isSome := ret_cache i hpc
    obtain ⟨w, hw⟩ := Option.isSome_iff_exists.mp hsome
    have hw0 : w = 0 := (cache_val w hw).1
    refine ⟨cons_le, cache_val, ?_, ?_, ?_, ?_, ?_, ?_, ?_⟩
    · intro j k hj hk
      by_cases hji : j = i
      · subst hji; simp only [Function.update_same] at hj; simp [in_crit] at hj
      · simp only [Function.update_noteq hji] at hj
        by_cases hki : k = i
        · subst hki; simp only [Function.update_same] at hk; simp [in_crit] at hk
        · simp only [Function.update_noteq hki] at hk; exact mutex j k hj hk
    · intro hl j
      by_cases hji : j = i
      · subst hji; simp only [Function.update_same]; rfl
      · simp only [Function.update_noteq hji]; exact lock_free hl j
    · intro j v hj
      by_cases hji : j = i
      · subst hji; simp only [Function.update_same] at hj; cases hj
      · simp only [Function.update_noteq hji] at hj; exact insert_inv j v hj
    · intro h0 h1
      obtain ⟨j, hj⟩ := pending_insert h0 h1
      have hji : j ≠ i := by intro e; rw [e, hpc] at hj; cases hj
      exact ⟨j, by simp only [Function.update_noteq hji]; exact hj⟩
    · intro j hj
      by_cases hji : j = i
      · subst hji; simp only [Function.update_same] at hj; cases hj
      · simp only [Function.update_noteq hji] at hj; exact release_cache j hj
    · intro j hj
      by_cases hji : j = i
      · subst hji; simp only [Function.update_same] at hj; cases hj
      · simp only [Function.update_noteq hji] at hj; exact ret_cache j hj
    · intro j v hj
      by_cases hji : j = i
      · subst hji; simp only [Function.update_same] at hj
        cases hj
        subst hw0
        exact ⟨hw, hw⟩
      · simp only [Function.update_noteq hji] at hj; exact done_cache j v hj

/-- Every reachable configuration satisfies the invariant. -/
theorem factory_inv_reachable {n : Nat} {c : FactoryConfig n}
    (h : factory_reachable n c) : FactoryInv n c := by
  induction h with
  | refl => exact factory_inv_init n
  | tail _ hstep ih => exact factory_inv_step ih hstep

/-- Closed form of the retry loop when every attempt fails: starting at
`attempt < m`, the loop performs the remaining `m - attempt` invocations,
sleeps `delay×(attempt+1), delay×(attempt+2), …` between them, and re-raises
the error of the final attempt `m - 1`. -/
theorem retry_from_all_fail {ε α : Type} (op : Nat → Except ε α) (f : Nat → ε)
    (hop : ∀ i, op i = .error (f i)) (m d : Nat) :
    ∀ fuel attempt, m - attempt ≤ fuel → attempt < m →
      retry_from op m d attempt =
        { calls := m - attempt
          sleeps := (List.range (m - attempt - 1)).map (fun k => d * (attempt + 1 + k))
          outcome := .raised (f (m - 1)) } := by
  intro fuel
  induction fuel with
  | zero => intro attempt hle hlt; omega
  | succ fu ih =>
    intro attempt hle hlt
    rw [retry_from, dif_pos hlt, hop attempt]
    dsimp only
    by_cases hlast : attempt = m - 1
    · rw [if_pos hlast]
      have h1 : m - attempt = 1 := by omega
      rw [h1, hlast]
      simp
    · rw [if_neg hlast]
      have ih' := ih (attempt + 1) (by omega) (by omega)
      simp only [ih', RetryTrace.mk.injEq]
      refine ⟨by omega, ?_, trivial⟩
      have h2 : m - attempt - 1 = (m - (attempt + 1) - 1) + 1 := by omega
      rw [h2, List.range_succ_eq_map, List.map_cons, List.map_map]
      have hf : ((fun k => d * (attempt + 1 + k)) ∘ Nat.succ) =
          fun k => d * (attempt + 1 + 1 + k) := by
        funext k
        show d * (attempt + 1 + Nat.succ k) = d * (attempt + 1 + 1 + k)
        have h3 : attempt + 1 + Nat.succ k = attempt + 1 + 1 + k := by omega
        rw [h3]
      rw [hf]

/-- Replacing a Signer's status by its current value is the identity. -/
theorem signer_set_status_self (s : Signer) (x : String) (h : s.status = x) :
    ({ s with status := x } : Signer) = s := by
  cases s; cases h; rfl

/-- Replacing a Document's provider and internal status by their current
values is the identity. -/
theorem document_set_statuses_self (d : Document) (x y : String)
    (hx : d.provider_status = x) (hy : d.internal_status = y) :
    ({ d with provider_status := x, internal_status := y } : Document) = d := by
  cases d; cases hx; cases hy; rfl

/-- Replacing a Document's provider status, signer list and internal status
by their current values is the identity. -/
theorem document_set_three_self (d : Document) (x : String) (ls : List Signer) (y : String)
    (hx : d.provider_status = x) (hl : d.signers = ls) (hy : d.internal_status = y) :
    ({ d with provider_status := x, signers := ls, internal_status := y } : Document) = d := by
  cases d; cases hx; cases hl; cases hy; rfl

/-- A signer entry whose status is absent or `signed` does not change an
all-signed signer list. -/
theorem apply_signer_entry_all_signed (l : List Signer) (e : SignerEntry)
    (hl : ∀ s ∈ l, s.status = "signed")
    (he : e.status = none ∨ e.status = some "signed") :
    apply_signer_entry l e = l := by
  unfold apply_signer_entry
  cases ht : e.token with
  | none => rfl
  | some t =>
    dsimp only
    by_cases h0 : t = ""
    · rw [if_pos h0]
    · rw [if_neg h0]
      apply list_map_id_of_mem
      intro s hs
      by_cases hst : s.token = some t
      · rw [if_pos hst]
        rcases he with he | he <;> rw [he]
        · exact signer_set_status_self s _ (by rw [Option.getD_none, hl s hs]; decide)
        · exact signer_set_status_self s _ (by rw [Option.getD_some, hl s hs]; decide)
      · rw [if_neg hst]

/-- Entries whose statuses are absent or `signed` do not change an
all-signed signer list. -/
theorem apply_signer_entries_all_signed (es : List SignerEntry) :
    ∀ l : List Signer, (∀ s ∈ l, s.status = "signed") →
      (∀ e ∈ es, e.status = none ∨ e.status = some "signed") →
      apply_signer_entries l es = l := by
  induction es with
  | nil => intro l _ _; rfl
  | cons e t ih =>
    intro l hl he
    show apply_signer_entries (apply_signer_entry l e) t = l
    rw [apply_signer_entry_all_signed l e hl (he e (by simp))]
    exact ih l hl fun e' he' => he e' (by simp [he'])

/-- Force-advance is the identity on an all-signed signer list. -/
theorem force_advance_all_signed (l : List Signer) (hl : ∀ s ∈ l, s.status = "signed") :
    force_advance l = l := by
  unfold force_advance
  apply list_map_id_of_mem
  intro s hs
  have h : ¬(s.status = "pending" ∨ s.status = "in_progress") := by
    rw [hl s hs]; decide
  rw [if_neg h]

/-- The derivation at provider status `signed` yields `signed` exactly on
all-signed signer lists. -/
theorem calculate_signed (l : List Signer) :
    calculate_internal_status "signed" l =
      (if l.all (fun s => s.status = "signed") then "signed" else "in_progress") := by
  unfold calculate_internal_status
  rw [if_neg (by decide : ¬("signed" = "cancelled" ∨ "signed" = "rejected" ∨ "signed" = "expired")), if_pos rfl]

/-- After force-advance, no signer remains `pending` or `in_progress`. -/
theorem force_advance_no_pending (l : List Signer) :
    ∀ s ∈ force_advance l, s.status ≠ "pending" ∧ s.status ≠ "in_progress" := by
  intro s hs
  unfold force_advance at hs
  obtain ⟨a, _, hae⟩ := List.mem_map.mp hs
  by_cases hcond : a.status = "pending" ∨ a.status = "in_progress"
  · rw [if_pos hcond] at hae
    rw [← hae]
    exact ⟨show ("signed" : String) ≠ "pending" by decide,
           show ("signed" : String) ≠ "in_progress" by decide⟩
  · rw [if_neg hcond] at hae
    rw [← hae]
    exact ⟨fun h => hcond (Or.inl h), fun h => hcond (Or.inr h)⟩

/-- C7 (confirmed): with `max_retries = N ≥ 1` and `delay = d`, a wrapped
operation that fails on every attempt is invoked exactly `N` times, the wait
before the `k`-th retry is `d × k` (the sleeps are `d×1, d×2, …, d×(N-1)`),
and the exception of the final attempt is propagated unchanged. -/
theorem c7_retry_bound {ε α : Type} (op : Nat → Except ε α) (f : Nat → ε) (n d : Nat)
    (hop : ∀ i, op i = Except.error (f i)) (hn : 1 ≤ n) :
    retry_operation op (n : Int) d =
      { calls := n
        sleeps := (List.range (n - 1)).map (fun k => d * (k + 1))
        outcome := .raised (f (n - 1)) } := by
  unfold retry_operation
  rw [Int.toNat_natCast]
  rw [retry_from_all_fail op f hop n d (n + 1) 0 (by omega) (by omega)]
  simp only [Nat.sub_zero, RetryTrace.mk.injEq]
  refine ⟨trivial, ?_, trivial⟩
  have hfun : (fun k => d * (0 + 1 + k)) = fun k => d * (k + 1) := by
    funext k
    have h : 0 + 1 + k = k + 1 := by omega
    rw [h]
  rw [hfun]

/-- Witness for C7: three always-failing attempts with delay 2 give calls
`3`, sleeps `[2, 4]`, and the original error re-raised. -/
theorem c7_witness :
    retry_operation (fun _ => (Except.error "boom" : Except String Nat)) (3 : Int) 2 =
      { calls := 3, sleeps := [2, 4], outcome := .raised "boom" } :=
  (c7_retry_bound (fun _ => Except.error "boom") (fun _ => "boom") 3 2 (fun _ => rfl)
    (by decide)).trans (by decide)

/-- C10 (confirmed): with `max_retries ≤ 0` the retry loop body never runs,
so `_retry_operation` invokes the operation zero times, sleeps never, raises
nothing, and falls through returning Python `None`. -/
theorem c10_zero_retries {ε α : Type} (op : Nat → Except ε α) (m : Int) (d : Nat)
    (hm : m ≤ 0) :
    retry_operation op m d = { calls := 0, sleeps := [], outcome := .noneReturned } := by
  unfold retry_operation
  rw [Int.toNat_of_nonpos hm, retry_from, dif_neg (by omega)]

/-- Witness for C10: `max_retries = -2` performs no invocation and returns
`None`. -/
theorem c10_witness :
    retry_operation (fun _ => (Except.error "boom" : Except String Nat)) (-2 : Int) 5 =
      { calls := 0, sleeps := [], outcome := .noneReturned } :=
  c10_zero_retries (fun _ => Except.error "boom") (-2) 5 (by decide)

/-- C9 (confirmed): in every reachable interleaving of `n` concurrent
`get_provider` calls with identical arguments in which all threads have
returned, every thread returned the same instance (the single constructed
one, id 0) and `_create_strategy` ran exactly once. -/
theorem c9_cache_singularity (n : Nat) (c : FactoryConfig n)
    (hreach : factory_reachable n c)
    (hdone : ∀ i, ∃ v, c.th i = ThreadPC.done v) :
    (∀ i, c.th i = ThreadPC.done (some 0)) ∧ (0 < n → c.constructions = 1) := by
  have hinv := factory_inv_reachable hreach
  constructor
  · intro i
    obtain ⟨v, hv⟩ := hdone i
    have h0 := (hinv.done_cache i v hv).1
    rw [h0] at hv
    exact hv
  · intro hn
    obtain ⟨v, hv⟩ := hdone ⟨0, hn⟩
    have hcache := (hinv.done_cache ⟨0, hn⟩ v hv).2
    exact (hinv.cache_val 0 hcache).2

/-- The one-thread trace `fw0 → … → fw6` is a run of the factory
semantics. -/
theorem fw6_reachable : factory_reachable 1 fw6 :=
  Relation.ReflTransGen.tail
    (Relation.ReflTransGen.tail
      (Relation.ReflTransGen.tail
        (Relation.ReflTransGen.tail
          (Relation.ReflTransGen.tail
            (Relation.ReflTransGen.tail Relation.ReflTransGen.refl
              (FactoryStep.fastMiss fw0 0 (by decide) (by decide)))
            (FactoryStep.acquire fw1 0 (by decide) (by decide)))
          (FactoryStep.createStep fw2 0 (by decide) (by decide)))
        (FactoryStep.insertStep fw3 0 0 (by decide)))
      (FactoryStep.releaseStep fw4 0 (by decide)))
    (FactoryStep.returnStep fw5 0 (by decide))

/-- In the final configuration of that trace the single thread is done. -/
theorem fw6_done : ∀ i : Fin 1, ∃ v, fw6.th i = ThreadPC.done v := by
  intro i
  refine ⟨some 0, ?_⟩
  have h : i = 0 := Subsingleton.elim i 0
  rw [h]
  decide

/-- Witness for C9, at the concrete one-thread trace. -/
theorem c9_witness :
    fw6.th 0 = ThreadPC.done (some 0) ∧ fw6.constructions = 1 :=
  ⟨(c9_cache_singularity 1 fw6 fw6_reachable fw6_done).1 0,
   (c9_cache_singularity 1 fw6 fw6_reachable fw6_done).2 (by decide)⟩

/-- C3 (confirmed): for every provider status string and signer multiset,
`_calculate_internal_status` returns exactly the result of the
specification's four ordered rules: terminal negative pass-through; `signed`
iff all signers signed else `in_progress`; `in_progress` when the signed
count is strictly between 0 and the total; else the strategy's
external-status mapping, which defaults to `pending`. -/
theorem c3_derivation_rule (ps : String) (l : List Signer) :
    calculate_internal_status ps l = derive_internal_status_spec ps l := by
  unfold calculate_internal_status derive_internal_status_spec
  by_cases h1 : ps = "cancelled" ∨ ps = "rejected" ∨ ps = "expired"
  · rw [if_pos h1, if_pos (show ps ∈ ["cancelled", "rejected", "expired"] by simpa using h1)]
  · rw [if_neg h1, if_neg (show ¬ps ∈ ["cancelled", "rejected", "expired"] by simpa using h1)]
    by_cases h2 : ps = "signed"
    · rw [if_pos h2, if_pos h2]
      by_cases h3 : ∀ s ∈ l, s.status = "signed"
      · rw [if_pos (show (l.all fun s => s.status = "signed") = true by simpa using h3),
            if_pos h3]
      · rw [if_neg (show ¬(l.all fun s => s.status = "signed") = true by simpa using h3),
            if_neg h3]
    · rw [if_neg h2, if_neg h2]
      dsimp only
      rw [List.countP_eq_length_filter]

/-- C6 (confirmed): when the document has a token and the status fetch
signals a not-found condition — either an exception whose text contains
`404` or `not found`, or a response with status `not_found` — the refresh
returns the document completely unchanged and surfaces no exception. -/
theorem c6_refresh_not_found_noop (d : Document) (fetch : Except String StatusResponse)
    (htok : d.token ≠ "")
    (hnf : (∃ e, fetch = .error e ∧ (has_sub e "404" || has_sub (strLower e) "not found") = true) ∨
           (∃ r, fetch = .ok r ∧ r.status = some "not_found")) :
    update_document_status d fetch = .ok d := by
  unfold update_document_status
  rw [if_neg htok]
  rcases hnf with ⟨e, he, hcond⟩ | ⟨r, hr, hst⟩
  · rw [he]
    dsimp only
    rw [if_pos hcond]
  · rw [hr]
    dsimp only
    rw [if_pos hst]

/-- Witness for C6: a 404 provider failure leaves the document untouched. -/
theorem c6_witness :
    update_document_status doc_one_signed
      (.error "Failed to get document status from ZapSign: 404 Client Error") =
      .ok doc_one_signed :=
  c6_refresh_not_found_noop doc_one_signed _ (by decide) (Or.inl ⟨_, rfl, by decide⟩)

/-- Membership in a map that conditionally overwrites statuses: the element
either got the written status or was already in the list. -/
theorem mem_map_set_status (l : List Signer) (P : Signer → Prop) [DecidablePred P] (x : String)
    (s : Signer) (hs : s ∈ l.map (fun a => if P a then { a with status := x } else a)) :
    s.status = x ∨ s ∈ l := by
  obtain ⟨a, ha, hae⟩ := List.mem_map.mp hs
  by_cases hp : P a
  · rw [if_pos hp] at hae
    left
    rw [← hae]
  · rw [if_neg hp] at hae
    right
    rw [← hae]
    exact ha

/-- C1 counterexample: a cancelled (terminal) document hit by a `doc_signed`
webhook has its internal status overwritten to `signed` — processing a
further event on a terminal document is not a no-op. -/
theorem c1_counterexample :
    doc_cancelled.internal_status = "cancelled" ∧
    (webhooks_process_webhook_event doc_cancelled (some "doc_signed")
        payload_empty).internal_status = "signed" := by decide

/-- C1 (corrected) amended claim: neither webhook processing nor refresh
carries a terminal-state guard, so terminal documents can still be mutated
(see the counterexample); what does hold is that the converged all-signed
terminal state is a fixed point: a duplicate `doc_signed` webhook and a
refresh whose response reports `signed` (with entries absent or `signed`)
leave the document and all its signers unchanged. -/
theorem c1_amended_signed_state_idempotent (d : Document) (pl : WebhookPayload)
    (entries : List SignerEntry)
    (hps : d.provider_status = "signed") (his : d.internal_status = "signed")
    (hsig : ∀ s ∈ d.signers, s.status = "signed")
    (hent : ∀ e ∈ entries, e.status = none ∨ e.status = some "signed")
    (htok : d.token ≠ "") :
    webhooks_process_webhook_event d (some "doc_signed") pl = d ∧
    update_document_status d (.ok { status := some "signed", signers := entries }) = .ok d := by
  constructor
  · unfold webhooks_process_webhook_event
    rw [if_pos rfl]
    exact document_set_statuses_self d _ _ hps his
  · unfold update_document_status
    rw [if_neg htok]
    dsimp only
    rw [if_neg (by decide : ¬(some "signed" : Option String) = some "not_found")]
    rw [show ((some "signed" : Option String).getD d.provider_status) = "signed" from rfl]
    rw [if_pos rfl]
    rw [apply_signer_entries_all_signed entries d.signers hsig hent]
    rw [force_advance_all_signed d.signers hsig]
    rw [calculate_signed d.signers]
    rw [if_pos (show (d.signers.all fun s => s.status = "signed") = true by
          simpa [List.all_eq_true] using hsig)]
    exact congrArg Except.ok (document_set_three_self d _ _ _ hps rfl his)

/-- Witness for C1's amended claim at the converged signed document. -/
theorem c1_witness :
    webhooks_process_webhook_event doc_all_signed (some "doc_signed") payload_empty =
      doc_all_signed ∧
    update_document_status doc_all_signed (.ok resp_signed_entry) = .ok doc_all_signed :=
  c1_amended_signed_state_idempotent doc_all_signed payload_empty resp_signed_entry.signers
    rfl rfl (by decide) (by decide) (by decide)

/-- C2 counterexample: the only signer of `doc_one_signed` is `signed`, yet
a refresh carrying the stale entry `new` for that signer rewrites it to
`pending` (and the document to `pending`) — the refresh path can move a
signed signer backwards. -/
theorem c2_counterexample :
    doc_one_signed.signers.map Signer.status = ["signed"] ∧
    update_document_status doc_one_signed (.ok resp_stale) =
      .ok ({ doc_one_signed with provider_status := "pending",
                                 internal_status := "pending",
                                 signers := [sig_pending] } : Document) := by decide

/-- C2 (corrected) amended claim: monotonicity holds on the webhook channel
only — `_process_webhook_event` writes nothing but `signed` or `rejected`
into signer rows, so no webhook event moves a signed/rejected signer back to
pending/in_progress; the refresh path (`update_document_status`)
unconditionally overwrites signer statuses with the mapped provider entry
and can regress them (see the counterexample). -/
theorem c2_amended_webhook_never_regresses (d : Document) (et : Option String)
    (pl : WebhookPayload) (s : Signer)
    (hs : s ∈ (webhooks_process_webhook_event d et pl).signers) :
    s.status = "signed" ∨ s.status = "rejected" ∨ s ∈ d.signers := by
  unfold webhooks_process_webhook_event at hs
  by_cases h1 : et = some "doc_signed"
  · rw [if_pos h1] at hs
    exact Or.inr (Or.inr hs)
  rw [if_neg h1] at hs
  by_cases h2 : et = some "signer_signed"
  · rw [if_pos h2] at hs
    cases hpl : pl.signer_token with
    | none => rw [hpl] at hs; exact Or.inr (Or.inr hs)
    | some t =>
      rw [hpl] at hs
      dsimp only at hs
      by_cases hc : t ≠ "" ∧ d.signers.any (fun x => x.token = some t)
      · rw [if_pos hc] at hs
        rw [apply_ite Document.signers] at hs
        dsimp only at hs
        rw [ite_self] at hs
        rcases mem_map_set_status d.signers (fun x => x.token = some t) "signed" s hs with h | h
        · exact Or.inl h
        · exact Or.inr (Or.inr h)
      · rw [if_neg hc] at hs
        exact Or.inr (Or.inr hs)
  rw [if_neg h2] at hs
  by_cases h3 : et = some "signer_authentication_failed"
  · rw [if_pos h3] at hs
    cases hpl : pl.unauth_signer_token with
    | none => rw [hpl] at hs; exact Or.inr (Or.inr hs)
    | some t =>
      rw [hpl] at hs
      dsimp only at hs
      by_cases hc : t ≠ "" ∧ d.signers.any (fun x => x.token = some t)
      · rw [if_pos hc] at hs
        dsimp only at hs
        rcases mem_map_set_status d.signers (fun x => x.token = some t) "rejected" s hs with h | h
        · exact Or.inr (Or.inl h)
        · exact Or.inr (Or.inr h)
      · rw [if_neg hc] at hs
        exact Or.inr (Or.inr hs)
  rw [if_neg h3] at hs
  by_cases h4 : et = some "email_bounce"
  · rw [if_pos h4] at hs
    cases hpl : pl.email with
    | none => rw [hpl] at hs; exact Or.inr (Or.inr hs)
    | some em =>
      rw [hpl] at hs
      dsimp only at hs
      by_cases hc : em ≠ "" ∧ d.signers.any (fun x => x.email = em)
      · rw [if_pos hc] at hs
        dsimp only at hs
        rcases mem_map_set_status d.signers (fun x => x.email = em) "rejected" s hs with h | h
        · exact Or.inr (Or.inl h)
        · exact Or.inr (Or.inr h)
      · rw [if_neg hc] at hs
        exact Or.inr (Or.inr hs)
  rw [if_neg h4] at hs
  exact Or.inr (Or.inr hs)

/-- Witness for C2's amended claim: the signer written by a `signer_signed`
webhook on `doc_pending` is `signed`. -/
theorem c2_witness :
    sig_signed.status = "signed" ∨ sig_signed.status = "rejected" ∨
      sig_signed ∈ doc_pending.signers :=
  c2_amended_webhook_never_regresses doc_pending (some "signer_signed")
    { signer_token := some "s1", unauth_signer_token := none, email := none }
    sig_signed (by decide)

/-- C4 counterexample: adding a pending signer to the fully signed
`doc_all_signed` leaves the stored internal status `signed`, while the
derivation rule over the resulting state yields `in_progress` — the
persisted internal status is not recomputed by `add_signer_to_document`. -/
theorem c4_counterexample :
    add_signer_to_document doc_all_signed signer_input_bob add_resp_new = .ok doc_c4_result ∧
    doc_c4_result.internal_status = "signed" ∧
    calculate_internal_status doc_c4_result.provider_status doc_c4_result.signers =
      "in_progress" := by decide

/-- C4 (corrected) amended claim: the internal status is recomputed by the
derivation rule on the successful refresh path, but `add_signer_to_document`
and the `signer_authentication_failed` / `email_bounce` webhook branches
leave `internal_status` untouched even though they change the signer set, so
`internal_status` is not everywhere a pure function of
`(provider_status, signer statuses)`. -/
theorem c4_amended_recomputation_scope (d d1 d2 : Document) (r : StatusResponse)
    (inp : SignerInput) (ar : AddSignerResponse) (pl : WebhookPayload)
    (htok : d.token ≠ "") (hnf : r.status ≠ some "not_found")
    (hupd : update_document_status d (.ok r) = .ok d1)
    (hadd : add_signer_to_document d inp ar = .ok d2) :
    d1.internal_status = calculate_internal_status d1.provider_status d1.signers ∧
    d2.internal_status = d.internal_status ∧
    (webhooks_process_webhook_event d (some "signer_authentication_failed")
        pl).internal_status = d.internal_status ∧
    (webhooks_process_webhook_event d (some "email_bounce") pl).internal_status
      = d.internal_status := by
  refine ⟨?_, ?_, ?_, ?_⟩
  · unfold update_document_status at hupd
    rw [if_neg htok] at hupd
    dsimp only at hupd
    rw [if_neg hnf] at hupd
    cases hupd
    rfl
  · unfold add_signer_to_document at hadd
    rw [if_neg htok] at hadd
    cases hadd
    rfl
  · unfold webhooks_process_webhook_event
    rw [if_neg (by decide : ¬(some "signer_authentication_failed" : Option String)
          = some "doc_signed"),
        if_neg (by decide : ¬(some "signer_authentication_failed" : Option String)
          = some "signer_signed"),
        if_pos rfl]
    cases pl.unauth_signer_token with
    | none => rfl
    | some t =>
      dsimp only
      by_cases hc : t ≠ "" ∧ d.signers.any (fun x => x.token = some t)
      · rw [if_pos hc]
      · rw [if_neg hc]
  · unfold webhooks_process_webhook_event
    rw [if_neg (by decide : ¬(some "email_bounce" : Option String) = some "doc_signed"),
        if_neg (by decide : ¬(some "email_bounce" : Option String) = some "signer_signed"),
        if_neg (by decide : ¬(some "email_bounce" : Option String)
          = some "signer_authentication_failed"),
        if_pos rfl]
    cases pl.email with
    | none => rfl
    | some em =>
      dsimp only
      by_cases hc : em ≠ "" ∧ d.signers.any (fun x => x.email = em)
      · rw [if_pos hc]
      · rw [if_neg hc]

/-- Witness for C4's amended claim at concrete documents. -/
theorem c4_witness :
    doc_c4_upd.internal_status =
        calculate_internal_status doc_c4_upd.provider_status doc_c4_upd.signers ∧
    doc_c4_result.internal_status = doc_all_signed.internal_status ∧
    (webhooks_process_webhook_event doc_all_signed (some "signer_authentication_failed")
        payload_empty).internal_status = doc_all_signed.internal_status ∧
    (webhooks_process_webhook_event doc_all_signed (some "email_bounce")
        payload_empty).internal_status = doc_all_signed.internal_status :=
  c4_amended_recomputation_scope doc_all_signed doc_c4_upd doc_c4_result resp_stale
    signer_input_bob add_resp_new payload_empty (by decide) (by decide) (by decide) (by decide)

/-- C5 counterexample: a refresh reporting `signed` on a document whose only
signer has `rejected` leaves that signer rejected and the internal status
`in_progress` — not "every signer signed and internal status signed" as
claimed. -/
theorem c5_counterexample :
    update_document_status doc_one_rejected (.ok resp_signed) =
      .ok ({ doc_one_rejected with provider_status := "signed",
                                   internal_status := "in_progress",
                                   signers := [sig_rejected] } : Document) ∧
    sig_rejected.status ≠ "signed" := by decide

/-- C5 (corrected) amended claim: when the refresh response reports
`signed`, every signer still pending/in_progress is force-advanced to
`signed` (no signer remains pending or in progress), while already
rejected/cancelled signers are untouched, and the resulting internal status
is `signed` iff all signers then read `signed`, else `in_progress`. -/
theorem c5_amended_force_advance (d d' : Document) (r : StatusResponse)
    (htok : d.token ≠ "") (hsig : r.status = some "signed")
    (hupd : update_document_status d (.ok r) = .ok d') :
    d'.provider_status = "signed" ∧
    (∀ s ∈ d'.signers, s.status ≠ "pending" ∧ s.status ≠ "in_progress") ∧
    d'.internal_status =
      (if d'.signers.all (fun s => s.status = "signed") then "signed" else "in_progress") := by
  unfold update_document_status at hupd
  rw [if_neg htok] at hupd
  dsimp only at hupd
  rw [hsig] at hupd
  rw [if_neg (by decide : ¬(some "signed" : Option String) = some "not_found")] at hupd
  rw [show ((some "signed" : Option String).getD d.provider_status) = "signed" from rfl] at hupd
  rw [if_pos rfl] at hupd
  cases hupd
  refine ⟨rfl, ?_, ?_⟩
  · exact force_advance_no_pending (apply_signer_entries d.signers r.signers)
  · exact calculate_signed _

/-- Witness for C5's amended claim: refreshing `doc_pending` with a `signed`
response advances its signer and the document to `signed`. -/
theorem c5_witness :
    doc_c5w.provider_status = "signed" ∧
    (sig_signed.status ≠ "pending" ∧ sig_signed.status ≠ "in_progress") ∧
    doc_c5w.internal_status =
      (if doc_c5w.signers.all (fun s => s.status = "signed") then "signed"
       else "in_progress") := by
  have h := c5_amended_force_advance doc_pending doc_c5w resp_signed (by decide) rfl (by decide)
  exact ⟨h.1, h.2.1 sig_signed (by decide), h.2.2⟩

/-- C8 counterexample: a `doc_signed` webhook processed by the webhook
endpoint's handler marks the document signed but leaves its pending signer
pending — the handler does not force non-terminal signers to `signed`. -/
theorem c8_counterexample :
    (webhooks_process_webhook_event doc_pending (some "doc_signed")
        payload_empty).internal_status = "signed" ∧
    (webhooks_process_webhook_event doc_pending (some "doc_signed")
        payload_empty).signers.map Signer.status = ["pending"] := by decide

/-- C8 (corrected) amended claim: on `doc_signed` the webhook endpoint's
handler (`_process_webhook_event`) sets provider and internal status to
`signed` but leaves all signer statuses unchanged; the force-advance of
non-terminal signers exists only in the facade's `process_webhook_event`,
which the webhook endpoint does not invoke — only the polling refresh
force-advances signers. -/
theorem c8_amended_doc_signed_paths (d : Document) (pl : WebhookPayload) (fp : FacadePayload)
    (hev : py_or fp.event_type fp.event = some "doc_signed") :
    webhooks_process_webhook_event d (some "doc_signed") pl =
      { d with provider_status := "signed", internal_status := "signed" } ∧
    facade_process_webhook_event d fp =
      { d with provider_status := "signed", internal_status := "signed",
               signers := force_advance d.signers } := by
  constructor
  · unfold webhooks_process_webhook_event
    rw [if_pos rfl]
  · unfold facade_process_webhook_event
    dsimp only
    rw [hev]
    rw [if_neg (by decide : ¬¬truthy (some "doc_signed") = true)]
    rw [if_neg (by decide : ¬(some "doc_signed" : Option String) = some "doc_created")]
    rw [if_pos rfl]

/-- Witness for C8's amended claim at `doc_pending`. -/
theorem c8_witness :
    webhooks_process_webhook_event doc_pending (some "doc_signed") payload_empty =
      { doc_pending with provider_status := "signed", internal_status := "signed" } ∧
    facade_process_webhook_event doc_pending fp_doc_signed =
      { doc_pending with provider_status := "signed", internal_status := "signed",
                         signers := force_advance doc_pending.signers } :=
  c8_amended_doc_signed_paths doc_pending payload_empty fp_doc_signed (by decide)
